import Mathlib

/-!
Session multiplexing of the DTLS server.

A shallow embedding of `src/server.cpp` (class `DtlsServer`): the listening flag, the UDP
socket, the stateless verifier (`cookieSender`) and the vector `knownClients` of per-peer
DTLS engines, together with the operations `listen`, `isListening`, `close`, `readyRead`,
`handleNewConnection`, `doHandshake`, `decryptDatagram` and `shutdown`.

The Qt classes the server calls into (`QUdpSocket`, `QDtls`, `QDtlsClientVerifier`) are not
part of the repository.  Their observable state is kept as plain records, and the results of
the calls whose outcome the server cannot determine (cookie verification, handshake,
decryption, encrypted write, bind) are read from an environment `Env`, which the theorems
quantify over.  Every operation returns the new server state together with the list of
signals it emitted and external calls it made, in program order.

The table `knownClients` is a vector of shared pointers; here it is a list of engine states,
an iterator is a position in the list, and what a call does to an engine reached through
the table is written back to the engine's position.  The slot `pskRequired` runs inside an
engine's handshake step and touches no member of the server; it is part of the outcome of
`doHandshake` in the environment.
-/

namespace SecureUdp

/-! ## Data model -/

/-- Bytes of a datagram (`QByteArray`). -/
abbrev QByteArray := List Nat

/-- A host address (`QHostAddress`): the null address of a default-constructed value, or a
concrete address. -/
inductive QHostAddress where
  | null : QHostAddress
  | ip (a : Nat) : QHostAddress
  deriving DecidableEq

/-- The test `QHostAddress::isNull`. -/
def QHostAddress.isNull : QHostAddress → Bool
  | .null => true
  | .ip _ => false

/-- Error codes of the DTLS classes (`QDtlsError`). -/
inductive QDtlsError where
  | NoError
  | InvalidInputParameters
  | InvalidOperation
  | UnderlyingSocketError
  | RemoteClosedConnectionError
  | PeerVerificationError
  | TlsInitializationError
  | TlsFatalError
  | TlsNonFatalError
  deriving DecidableEq

/-- Handshake states of an engine (`QDtls::HandshakeState`). -/
inductive HandshakeState where
  | HandshakeNotStarted
  | HandshakeInProgress
  | PeerVerificationFailed
  | HandshakeComplete
  deriving DecidableEq

/-- Protocol versions an engine can report (`QSsl::SslProtocol`); `other` stands for every
value the switch in `connection_info` sends to its default branch. -/
inductive SslProtocol where
  | DtlsV1_0
  | DtlsV1_2
  | DtlsV1_2OrLater
  | other
  deriving DecidableEq

/-- The part of `QSslConfiguration` the constructor sets. -/
structure QSslConfiguration where
  preSharedKeyIdentityHint : String
  verifyNone : Bool
  deriving DecidableEq

/-- Observable state of one secure-channel engine (`QDtls`). -/
structure QDtls where
  peerAddress : QHostAddress
  peerPort : Nat
  dtlsConfiguration : Option QSslConfiguration
  handshakeState : HandshakeState
  isConnectionEncrypted : Bool
  dtlsError : QDtlsError
  dtlsErrorString : String
  sessionCipherName : String
  sessionProtocol : SslProtocol
  deriving DecidableEq

/-- Observable state of the stateless verifier (`QDtlsClientVerifier`). -/
structure QDtlsClientVerifier where
  dtlsError : QDtlsError
  dtlsErrorString : String
  deriving DecidableEq

/-- One datagram waiting in the socket, with the endpoint it came from. -/
structure Datagram where
  data : QByteArray
  senderAddress : QHostAddress
  senderPort : Nat
  deriving DecidableEq

/-- Observable state of the UDP socket (`QUdpSocket`): whether it is bound, its local
endpoint (null address and port 0 when unbound), its last error text and the queue of
datagrams received and not yet read. -/
structure QUdpSocket where
  bound : Bool
  localAddress : QHostAddress
  localPort : Nat
  errorString : String
  pending : List Datagram
  deriving DecidableEq

/-- The text `(%1:%2)` built by `peer_info`, kept as its two arguments. -/
structure PeerInfo where
  address : QHostAddress
  port : Nat
  deriving DecidableEq

/-- The four protocol texts of `connection_info`. -/
inductive ProtocolText where
  | dtls10
  | dtls12
  | dtls12OrLater
  | unknownProtocol
  deriving DecidableEq

/-- The text built by `connection_info`: the cipher name and the protocol text. -/
structure ConnectionInfo where
  cipher : String
  protocol : ProtocolText
  deriving DecidableEq

/-- Texts of the messages the server emits, one constructor per format string of the
source. -/
inductive Message where
  | spuriousRead
  | failedToRead (socketError : String)
  | failedToExtractPeer
  | verified (peerInfo : PeerInfo)
  | dtlsError (errorString : String)
  | notVerifiedYet (peerInfo : PeerInfo)
  | plain (text : String)
  | handshakeInProgress (peerInfo : PeerInfo)
  | connectionEncrypted (peerInfo : PeerInfo) (info : ConnectionInfo)
  | zeroByteDgram (peerInfo : PeerInfo)
  | peerError (peerInfo : PeerInfo) (errorString : String)
  deriving DecidableEq

/-- What an operation does that is visible outside the server object: the four signals of
`server.h`, and the calls into the verifier, the engines and the socket. -/
inductive Action where
  | errorMessage (message : Message)
  | warningMessage (message : Message)
  | infoMessage (message : Message)
  | datagramReceived (peerInfo : PeerInfo) (cipherText plainText : QByteArray)
  | verifyClient (dgram : QByteArray) (address : QHostAddress) (port : Nat)
  | engineDoHandshake (connection : QDtls) (dgram : QByteArray)
  | engineDecryptDatagram (connection : QDtls) (dgram : QByteArray)
  | engineWriteDatagramEncrypted (connection : QDtls) (ackFor : PeerInfo)
  | engineShutdown (connection : QDtls)
  | socketBind (address : QHostAddress) (port : Nat)
  | socketClose
  | qUnreachable
  deriving DecidableEq

/-- Outcomes of the external calls, as functions of what the call is given. -/
structure Env where
  verifyClient : QDtlsClientVerifier → QByteArray → QHostAddress → Nat →
    Bool × QDtlsClientVerifier
  doHandshake : QDtls → QByteArray → Bool × QDtls
  decryptDatagram : QDtls → QByteArray → QByteArray × QDtls
  writeDatagramEncrypted : QDtls → PeerInfo → QDtls
  bindSucceeds : QHostAddress → Nat → Bool
  ephemeralPort : Nat
  bindErrorString : String

/-- The server object: the data members of `DtlsServer` in `server.h`. -/
structure DtlsServer where
  listening : Bool
  serverSocket : QUdpSocket
  serverConfiguration : QSslConfiguration
  cookieSender : QDtlsClientVerifier
  knownClients : List QDtls
  deriving DecidableEq

/-! ## The socket -/

/-- Size of the first pending datagram, or -1 when none is pending
(`QUdpSocket::pendingDatagramSize`). -/
def QUdpSocket.pendingDatagramSize (sock : QUdpSocket) : Int :=
  match sock.pending with
  | [] => -1
  | d :: _ => (d.data.length : Int)

/-- Result of `readDatagram`: the byte count (or -1), the bytes stored in the buffer, the
sender endpoint written through the two out-pointers, and the socket afterwards. -/
structure ReadResult where
  bytesRead : Int
  data : QByteArray
  peerAddress : QHostAddress
  peerPort : Nat
  socket : QUdpSocket

/-- Reading with `QUdpSocket::readDatagram` into a buffer of `maxSize` bytes: the first
pending datagram leaves the queue, what does not fit is lost.  With nothing pending the call
fails with -1 and leaves the out-parameters as the caller initialised them (null, 0). -/
def QUdpSocket.readDatagram (sock : QUdpSocket) (maxSize : Nat) : ReadResult :=
  match sock.pending with
  | [] =>
    { bytesRead := -1, data := [], peerAddress := QHostAddress.null, peerPort := 0,
      socket := sock }
  | d :: rest =>
    { bytesRead := ((d.data.take maxSize).length : Int), data := d.data.take maxSize,
      peerAddress := d.senderAddress, peerPort := d.senderPort,
      socket := { sock with pending := rest } }

/-- Closing the socket (`QAbstractSocket::close`): unbound, local endpoint reset to the null
address and port 0, unread datagrams dropped. -/
def QUdpSocket.close (sock : QUdpSocket) : QUdpSocket :=
  { sock with bound := false, localAddress := QHostAddress.null, localPort := 0,
              pending := [] }

/-- Binding the socket (`QAbstractSocket::bind`): refused on a socket that is already bound;
otherwise the environment decides, and on success the local endpoint is the requested one
(with the port chosen by the system when port 0 was asked for). -/
def QUdpSocket.bind (env : Env) (sock : QUdpSocket) (address : QHostAddress) (port : Nat) :
    Bool × QUdpSocket :=
  if sock.bound then (false, sock)
  else if env.bindSucceeds address port then
    (true, { sock with bound := true, localAddress := address,
                       localPort := if port = 0 then env.ephemeralPort else port })
  else (false, { sock with errorString := env.bindErrorString })

/-! ## Engines -/

/-- A new engine (`new QDtls(QSslSocket::SslServerMode)`). -/
def QDtls.new : QDtls :=
  { peerAddress := QHostAddress.null, peerPort := 0, dtlsConfiguration := none,
    handshakeState := HandshakeState.HandshakeNotStarted, isConnectionEncrypted := false,
    dtlsError := QDtlsError.NoError, dtlsErrorString := "", sessionCipherName := "",
    sessionProtocol := SslProtocol.other }

/-- The setter `QDtls::setDtlsConfiguration`. -/
def QDtls.setDtlsConfiguration (c : QDtls) (conf : QSslConfiguration) : QDtls :=
  { c with dtlsConfiguration := some conf }

/-- The setter `QDtls::setPeer`. -/
def QDtls.setPeer (c : QDtls) (address : QHostAddress) (port : Nat) : QDtls :=
  { c with peerAddress := address, peerPort := port }

/-! ## Helpers of the anonymous namespace -/

/-- Text `(address:port)` naming a peer. -/
def peer_info (address : QHostAddress) (port : Nat) : PeerInfo :=
  { address := address, port := port }

/-- Text describing the negotiated cipher and protocol of a connection. -/
def connection_info (connection : QDtls) : ConnectionInfo :=
  { cipher := connection.sessionCipherName,
    protocol :=
      match connection.sessionProtocol with
      | SslProtocol.DtlsV1_0 => ProtocolText.dtls10
      | SslProtocol.DtlsV1_2 => ProtocolText.dtls12
      | SslProtocol.DtlsV1_2OrLater => ProtocolText.dtls12OrLater
      | SslProtocol.other => ProtocolText.unknownProtocol }

/-- The search `std::find_if` over a vector: position and value of the first element that
satisfies `p`, or `none` for the end iterator. -/
def find_if {α : Type} (p : α → Bool) : List α → Option (Nat × α)
  | [] => none
  | x :: xs =>
    if p x then some (0, x)
    else
      match find_if p xs with
      | none => none
      | some (i, y) => some (i + 1, y)

/-! ## The server -/

namespace DtlsServer

/-- The constructor `DtlsServer::DtlsServer`: not listening, socket unbound, no clients. -/
def init : DtlsServer :=
  { listening := false,
    serverSocket :=
      { bound := false, localAddress := QHostAddress.null, localPort := 0,
        errorString := "", pending := [] },
    serverConfiguration :=
      { preSharedKeyIdentityHint := "Qt DTLS example server", verifyNone := true },
    cookieSender := { dtlsError := QDtlsError.NoError, dtlsErrorString := "" },
    knownClients := [] }

/-- The private member `DtlsServer::shutdown`: every engine is told to shut down, the table
is cleared, the socket is closed. -/
def shutdown (s : DtlsServer) : DtlsServer × List Action :=
  ({ s with knownClients := [], serverSocket := s.serverSocket.close },
   s.knownClients.map Action.engineShutdown ++ [Action.socketClose])

/-- The member `DtlsServer::listen`. -/
def listen (env : Env) (s : DtlsServer) (address : QHostAddress) (port : Nat) :
    Bool × DtlsServer × List Action :=
  if address ≠ s.serverSocket.localAddress ∨ port ≠ s.serverSocket.localPort then
    let r := s.shutdown
    let b := r.1.serverSocket.bind env address port
    let s2 := { r.1 with listening := b.1, serverSocket := b.2 }
    if !b.1 then
      (b.1, s2, r.2 ++ [Action.socketBind address port,
                        Action.errorMessage (Message.plain b.2.errorString)])
    else
      (b.1, s2, r.2 ++ [Action.socketBind address port])
  else
    (true, { s with listening := true }, [])

/-- The member `DtlsServer::isListening`. -/
def isListening (s : DtlsServer) : Bool :=
  s.listening

/-- The member `DtlsServer::close`. -/
def close (s : DtlsServer) : DtlsServer :=
  { s with listening := false }

/-- The member `DtlsServer::doHandshake`, on the engine it is handed: the engine after the
handshake step and what was emitted.  The default branch of the switch is
`Q_UNREACHABLE()`; it is recorded as an action of its own. -/
def doHandshake (env : Env) (newConnection : QDtls) (clientHello : QByteArray) :
    QDtls × List Action :=
  let r := env.doHandshake newConnection clientHello
  let call := Action.engineDoHandshake newConnection clientHello
  if !r.1 then
    (r.2, [call, Action.errorMessage (Message.plain r.2.dtlsErrorString)])
  else
    let peerInfo := peer_info r.2.peerAddress r.2.peerPort
    match r.2.handshakeState with
    | HandshakeState.HandshakeInProgress =>
      (r.2, [call, Action.infoMessage (Message.handshakeInProgress peerInfo)])
    | HandshakeState.HandshakeComplete =>
      (r.2, [call, Action.infoMessage
        (Message.connectionEncrypted peerInfo (connection_info r.2))])
    | _ => (r.2, [call, Action.qUnreachable])

/-- The member `DtlsServer::decryptDatagram`, on the engine it is handed: the engine after
decryption (and after the acknowledgement was written, when there was plaintext) and what
was emitted. -/
def decryptDatagram (env : Env) (connection : QDtls) (clientMessage : QByteArray) :
    QDtls × List Action :=
  let peerInfo := peer_info connection.peerAddress connection.peerPort
  let r := env.decryptDatagram connection clientMessage
  let call := Action.engineDecryptDatagram connection clientMessage
  if r.1.length ≠ 0 then
    (env.writeDatagramEncrypted r.2 peerInfo,
     [call, Action.datagramReceived peerInfo clientMessage r.1,
      Action.engineWriteDatagramEncrypted r.2 peerInfo])
  else if r.2.dtlsError = QDtlsError.NoError then
    (r.2, [call, Action.warningMessage (Message.zeroByteDgram peerInfo)])
  else
    (r.2, [call, Action.errorMessage (Message.peerError peerInfo r.2.dtlsErrorString)])

/-- The member `DtlsServer::handleNewConnection`.  The new engine is appended to the table
and then handed to `doHandshake`; the table holds the engine itself (a shared pointer), so
the handshake's effect on it shows in the last slot. -/
def handleNewConnection (env : Env) (s : DtlsServer) (peerAddress : QHostAddress)
    (peerPort : Nat) (clientHello : QByteArray) : DtlsServer × List Action :=
  if !s.listening then (s, [])
  else
    let peerInfo := peer_info peerAddress peerPort
    let v := env.verifyClient s.cookieSender clientHello peerAddress peerPort
    let call := Action.verifyClient clientHello peerAddress peerPort
    let s1 := { s with cookieSender := v.2 }
    if v.1 then
      let newConnection :=
        (QDtls.new.setDtlsConfiguration s1.serverConfiguration).setPeer peerAddress peerPort
      let s2 := { s1 with knownClients := s1.knownClients ++ [newConnection] }
      let h := doHandshake env newConnection clientHello
      ({ s2 with knownClients := s2.knownClients.set (s2.knownClients.length - 1) h.1 },
       [call, Action.infoMessage (Message.verified peerInfo)] ++ h.2)
    else if v.2.dtlsError ≠ QDtlsError.NoError then
      (s1, [call, Action.errorMessage (Message.dtlsError v.2.dtlsErrorString)])
    else
      (s1, [call, Action.infoMessage (Message.notVerifiedYet peerInfo)])

/-- The predicate of the `find_if` in `readyRead`: the engine's peer is the sender. -/
def isPeer (peerAddress : QHostAddress) (peerPort : Nat) (connection : QDtls) : Bool :=
  connection.peerAddress == peerAddress && connection.peerPort == peerPort

/-- The slot `DtlsServer::readyRead`.  An engine found in the table is used in place, so
what decryption or the handshake step does to it is written back to its slot. -/
def readyRead (env : Env) (s : DtlsServer) : DtlsServer × List Action :=
  let bytesToRead := s.serverSocket.pendingDatagramSize
  if bytesToRead ≤ 0 then
    (s, [Action.warningMessage Message.spuriousRead])
  else
    let rd := s.serverSocket.readDatagram bytesToRead.toNat
    let s1 := { s with serverSocket := rd.socket }
    if rd.bytesRead ≤ 0 then
      (s1, [Action.warningMessage (Message.failedToRead rd.socket.errorString)])
    else
      let dgram := rd.data.take rd.bytesRead.toNat
      if rd.peerAddress.isNull || rd.peerPort == 0 then
        (s1, [Action.warningMessage Message.failedToExtractPeer])
      else
        match find_if (isPeer rd.peerAddress rd.peerPort) s1.knownClients with
        | none => handleNewConnection env s1 rd.peerAddress rd.peerPort dgram
        | some (i, client) =>
          if client.isConnectionEncrypted then
            let d := decryptDatagram env client dgram
            let s2 := { s1 with knownClients := s1.knownClients.set i d.1 }
            if d.1.dtlsError = QDtlsError.RemoteClosedConnectionError then
              ({ s2 with knownClients := s2.knownClients.eraseIdx i }, d.2)
            else (s2, d.2)
          else
            let h := doHandshake env client dgram
            ({ s1 with knownClients := s1.knownClients.set i h.1 }, h.2)

end DtlsServer

/-! ## Vocabulary of the properties -/

/-- The peer endpoint of an engine: the key of the session table. -/
def QDtls.endpoint (c : QDtls) : QHostAddress × Nat :=
  (c.peerAddress, c.peerPort)

/-- The action is a call of the stateless verifier. -/
def Action.isVerifyClient : Action → Bool
  | .verifyClient _ _ _ => true
  | _ => false

/-- The action is a close notification sent through an engine. -/
def Action.isEngineShutdown : Action → Bool
  | .engineShutdown _ => true
  | _ => false

/-- The action is a bind attempt on the socket. -/
def Action.isSocketBind : Action → Bool
  | .socketBind _ _ => true
  | _ => false

/-- The action is an error event. -/
def Action.isErrorMessage : Action → Bool
  | .errorMessage _ => true
  | _ => false

/-- The action is a warning event. -/
def Action.isWarningMessage : Action → Bool
  | .warningMessage _ => true
  | _ => false

/-- The external calls leave an engine's peer endpoint as it is: only `setPeer` writes it. -/
def Env.KeepsPeer (env : Env) : Prop :=
  (∀ c d, (env.doHandshake c d).2.endpoint = c.endpoint) ∧
  (∀ c d, (env.decryptDatagram c d).2.endpoint = c.endpoint) ∧
  (∀ c p, (env.writeDatagramEncrypted c p).endpoint = c.endpoint)

/-- A datagram arrives from the network and joins the socket's queue. -/
def DtlsServer.arrive (s : DtlsServer) (d : Datagram) : DtlsServer :=
  { s with serverSocket := { s.serverSocket with pending := s.serverSocket.pending ++ [d] } }

/-- States the server can be in: a freshly constructed server, followed by any sequence of
`listen`, `close`, `shutdown`, datagram arrivals and `readyRead` dispatches, each under its
own outcomes of the external calls, with engines that keep their peer endpoint. -/
inductive Reachable : DtlsServer → Prop where
  | init : Reachable DtlsServer.init
  | listen (env : Env) (s : DtlsServer) (address : QHostAddress) (port : Nat) :
      Reachable s → Reachable (DtlsServer.listen env s address port).2.1
  | close (s : DtlsServer) : Reachable s → Reachable (DtlsServer.close s)
  | shutdown (s : DtlsServer) : Reachable s → Reachable (DtlsServer.shutdown s).1
  | arrive (s : DtlsServer) (d : Datagram) : Reachable s → Reachable (s.arrive d)
  | readyRead (env : Env) (s : DtlsServer) :
      env.KeepsPeer → Reachable s → Reachable (DtlsServer.readyRead env s).1

/-! ## Concrete servers and environments used as instances -/

/-- An engine for the peer at address 1, port `port`, with the given encryption flag. -/
def sampleEngine (port : Nat) (encrypted : Bool) : QDtls :=
  { (QDtls.new.setPeer (QHostAddress.ip 1) port) with
    isConnectionEncrypted := encrypted,
    handshakeState :=
      if encrypted then HandshakeState.HandshakeComplete
      else HandshakeState.HandshakeInProgress }

/-- A datagram with bytes `data` from the peer at address 1, port `port`. -/
def sampleDatagram (data : QByteArray) (port : Nat) : Datagram :=
  { data := data, senderAddress := QHostAddress.ip 1, senderPort := port }

/-- An environment in which the verifier accepts, handshake steps succeed and stay in
progress, decryption returns the ciphertext unchanged, and binding succeeds. -/
def envAccept : Env :=
  { verifyClient := fun v _ _ _ => (true, v),
    doHandshake := fun c _ =>
      (true, { c with handshakeState := HandshakeState.HandshakeInProgress }),
    decryptDatagram := fun c d => (d, c),
    writeDatagramEncrypted := fun c _ => c,
    bindSucceeds := fun _ _ => true,
    ephemeralPort := 50000,
    bindErrorString := "" }

/-- An environment in which the verifier is still pending, handshake steps fail, decryption
yields nothing and reports that the peer closed the connection, and binding fails. -/
def envReject : Env :=
  { verifyClient := fun v _ _ _ => (false, v),
    doHandshake := fun c _ => (false, { c with dtlsError := QDtlsError.TlsFatalError }),
    decryptDatagram := fun c _ =>
      ([], { c with dtlsError := QDtlsError.RemoteClosedConnectionError }),
    writeDatagramEncrypted := fun c _ => c,
    bindSucceeds := fun _ _ => false,
    ephemeralPort := 50000,
    bindErrorString := "bind failed" }

/-- A listening server bound to address 1, port 9000, with two established sessions (peers
at ports 40000 and 40001) and the given queue of pending datagrams. -/
def twoSessions (pending : List Datagram) : DtlsServer :=
  { DtlsServer.init with
    listening := true,
    serverSocket :=
      { bound := true, localAddress := QHostAddress.ip 1, localPort := 9000,
        errorString := "", pending := pending },
    knownClients := [sampleEngine 40000 true, sampleEngine 40001 true] }

/-- The server after this run: constructed, `listen` on address 1, port 9000, a first
datagram from the peer at port 40000 arrives and is dispatched with an accepting verifier. -/
def oneSession : DtlsServer :=
  (DtlsServer.readyRead envAccept
    ((DtlsServer.listen envAccept DtlsServer.init (QHostAddress.ip 1) 9000).2.1.arrive
      (sampleDatagram [22, 254, 253] 40000))).1

/-! ## Facts about the lookup -/

theorem find_if_eq_none {α : Type} (p : α → Bool) (l : List α) :
    find_if p l = none ↔ ∀ x ∈ l, p x = false := by
  induction l with
  | nil => simp [find_if]
  | cons x xs ih =>
    by_cases hx : p x = true
    · simp [find_if, hx]
    · have hx2 : p x = false := by simpa using hx
      simp only [find_if, hx2, List.mem_cons, forall_eq_or_imp, true_and]
      rw [← ih]
      cases h : find_if p xs with
      | none => simp
      | some r => simp

theorem find_if_some {α : Type} (p : α → Bool) (l : List α) (i : Nat) (x : α)
    (h : find_if p l = some (i, x)) :
    l[i]? = some x ∧ p x = true ∧ ∀ j, j < i → ∀ y, l[j]? = some y → p y = false := by
  induction l generalizing i with
  | nil => simp [find_if] at h
  | cons a as ih =>
    by_cases ha : p a = true
    · simp [find_if, ha] at h
      obtain ⟨rfl, rfl⟩ := h
      simp [ha]
    · have ha2 : p a = false := by simpa using ha
      simp only [find_if, ha2] at h
      cases hf : find_if p as with
      | none => simp [hf] at h
      | some r =>
        obtain ⟨k, y⟩ := r
        simp [hf] at h
        obtain ⟨rfl, rfl⟩ := h
        obtain ⟨h1, h2, h3⟩ := ih k hf
        refine ⟨by simpa using h1, h2, ?_⟩
        intro j hj z hz
        cases j with
        | zero => simp at hz; subst hz; exact ha2
        | succ m => exact h3 m (by omega) z (by simpa using hz)

theorem find_if_isSome_of_mem {α : Type} (p : α → Bool) (l : List α) (x : α)
    (hx : x ∈ l) (hp : p x = true) : ∃ i y, find_if p l = some (i, y) := by
  cases h : find_if p l with
  | none =>
    have := (find_if_eq_none p l).1 h x hx
    simp [hp] at this
  | some r => exact ⟨r.1, r.2, rfl⟩

/-! ## What `readyRead` does, case by case -/

/-- The server after the head of the socket's queue has been read. -/
theorem readDatagram_head (sock : QUdpSocket) (d : Datagram) (rest : List Datagram)
    (hq : sock.pending = d :: rest) :
    sock.pendingDatagramSize = (d.data.length : Int) ∧
    (sock.readDatagram d.data.length).bytesRead = (d.data.length : Int) ∧
    (sock.readDatagram d.data.length).data = d.data ∧
    (sock.readDatagram d.data.length).peerAddress = d.senderAddress ∧
    (sock.readDatagram d.data.length).peerPort = d.senderPort ∧
    (sock.readDatagram d.data.length).socket = { sock with pending := rest } := by
  simp [QUdpSocket.pendingDatagramSize, QUdpSocket.readDatagram, hq]

theorem readyRead_nothing_pending (env : Env) (s : DtlsServer)
    (hq : s.serverSocket.pending = []) :
    DtlsServer.readyRead env s = (s, [Action.warningMessage Message.spuriousRead]) := by
  simp [DtlsServer.readyRead, QUdpSocket.pendingDatagramSize, hq]

theorem readyRead_zero_length (env : Env) (s : DtlsServer) (d : Datagram)
    (rest : List Datagram) (hq : s.serverSocket.pending = d :: rest) (hd : d.data = []) :
    DtlsServer.readyRead env s = (s, [Action.warningMessage Message.spuriousRead]) := by
  simp [DtlsServer.readyRead, QUdpSocket.pendingDatagramSize, hq, hd]

/-- With a non-empty datagram at the head of the queue, `readyRead` reads it and goes on to
the check of the sender and the lookup. -/
theorem readyRead_head (env : Env) (s : DtlsServer) (d : Datagram) (rest : List Datagram)
    (hq : s.serverSocket.pending = d :: rest) (hd : d.data ≠ []) :
    DtlsServer.readyRead env s =
      if d.senderAddress.isNull || d.senderPort == 0 then
        ({ s with serverSocket := { s.serverSocket with pending := rest } },
         [Action.warningMessage Message.failedToExtractPeer])
      else
        match find_if (DtlsServer.isPeer d.senderAddress d.senderPort) s.knownClients with
        | none =>
          DtlsServer.handleNewConnection env
            { s with serverSocket := { s.serverSocket with pending := rest } }
            d.senderAddress d.senderPort d.data
        | some (i, client) =>
          if client.isConnectionEncrypted then
            if (DtlsServer.decryptDatagram env client d.data).1.dtlsError
                = QDtlsError.RemoteClosedConnectionError then
              ({ s with
                  serverSocket := { s.serverSocket with pending := rest },
                  knownClients :=
                    (s.knownClients.set i
                      (DtlsServer.decryptDatagram env client d.data).1).eraseIdx i },
               (DtlsServer.decryptDatagram env client d.data).2)
            else
              ({ s with
                  serverSocket := { s.serverSocket with pending := rest },
                  knownClients :=
                    s.knownClients.set i (DtlsServer.decryptDatagram env client d.data).1 },
               (DtlsServer.decryptDatagram env client d.data).2)
          else
            ({ s with
                serverSocket := { s.serverSocket with pending := rest },
                knownClients :=
                  s.knownClients.set i (DtlsServer.doHandshake env client d.data).1 },
             (DtlsServer.doHandshake env client d.data).2) := by
  have hlen : 0 < d.data.length := List.length_pos.2 hd
  obtain ⟨h1, h2, h3, h4, h5, h6⟩ := readDatagram_head s.serverSocket d rest hq
  have hpos : ¬ ((d.data.length : Int) ≤ 0) := by omega
  unfold DtlsServer.readyRead
  simp only [h1, Int.toNat_ofNat, h2, h3, h4, h5, h6, hpos, if_false, List.take_length]

/-! ## The facade: `listen`, `close`, `shutdown` -/

theorem shutdown_filter_engineShutdown (l : List QDtls) (rest : List Action)
    (hrest : rest.filter Action.isEngineShutdown = []) :
    (l.map Action.engineShutdown ++ rest).filter Action.isEngineShutdown
      = l.map Action.engineShutdown := by
  rw [List.filter_append, hrest, List.append_nil]
  induction l with
  | nil => rfl
  | cons c cs ih => simp [List.filter_cons, Action.isEngineShutdown, ih]

theorem shutdown_filter_errorMessage (l : List QDtls) (rest : List Action) :
    (l.map Action.engineShutdown ++ rest).filter Action.isErrorMessage
      = rest.filter Action.isErrorMessage := by
  rw [List.filter_append]
  induction l with
  | nil => rfl
  | cons c cs ih => simp [List.filter_cons, Action.isErrorMessage]

/-- C5: when the socket is bound to (address, port), `listen(address, port)` returns true,
sets `listening`, changes nothing else in the server (in particular `knownClients`), emits
nothing and calls nothing (so no session is sent a close notification); calling it a second
time gives the state the first call gave. -/
theorem listen_same_endpoint_idempotent (env : Env) (s : DtlsServer)
    (address : QHostAddress) (port : Nat)
    (hb : s.serverSocket.bound = true)
    (ha : s.serverSocket.localAddress = address) (hp : s.serverSocket.localPort = port) :
    (DtlsServer.listen env s address port).1 = true ∧
    (DtlsServer.listen env s address port).2.1.listening = true ∧
    (DtlsServer.listen env s address port).2.1.knownClients = s.knownClients ∧
    (DtlsServer.listen env s address port).2.1 = { s with listening := true } ∧
    (DtlsServer.listen env s address port).2.2 = [] ∧
    (DtlsServer.listen env s address port).2.2.filter Action.isEngineShutdown = [] ∧
    (DtlsServer.listen env (DtlsServer.listen env s address port).2.1 address port).2.1
      = (DtlsServer.listen env s address port).2.1 ∧
    (DtlsServer.listen env (DtlsServer.listen env s address port).2.1 address port).2.2
      = [] := by
  have _ := hb
  subst ha hp
  simp [DtlsServer.listen]

theorem listen_same_endpoint_idempotent_witness :
    (twoSessions []).serverSocket.bound = true ∧
    (DtlsServer.listen envReject (twoSessions []) (QHostAddress.ip 1) 9000).1 = true ∧
    (DtlsServer.listen envReject (twoSessions []) (QHostAddress.ip 1) 9000).2.1.knownClients
      = [sampleEngine 40000 true, sampleEngine 40001 true] ∧
    (DtlsServer.listen envReject
        (DtlsServer.listen envReject (twoSessions []) (QHostAddress.ip 1) 9000).2.1
        (QHostAddress.ip 1) 9000).2.1
      = (DtlsServer.listen envReject (twoSessions []) (QHostAddress.ip 1) 9000).2.1 := by
  have h := listen_same_endpoint_idempotent envReject (twoSessions []) (QHostAddress.ip 1)
    9000 rfl rfl rfl
  exact ⟨rfl, h.1, h.2.2.1, h.2.2.2.2.2.2.1⟩

/-- C6: when the requested endpoint differs from the socket's local endpoint, `listen` sends
every record of `knownClients` one close notification (the close notifications are exactly
one per record, in table order), leaves `knownClients` empty whatever the bind does, returns
the outcome of the bind, which is also what `isListening` reports afterwards, and emits an
error event exactly when the bind fails (then exactly one, the result is false and the
server is not listening). -/
theorem listen_other_endpoint (env : Env) (s : DtlsServer)
    (address : QHostAddress) (port : Nat)
    (h : address ≠ s.serverSocket.localAddress ∨ port ≠ s.serverSocket.localPort) :
    (DtlsServer.listen env s address port).2.2.filter Action.isEngineShutdown
      = s.knownClients.map Action.engineShutdown ∧
    (DtlsServer.listen env s address port).2.1.knownClients = [] ∧
    (DtlsServer.listen env s address port).1
      = ((DtlsServer.shutdown s).1.serverSocket.bind env address port).1 ∧
    (DtlsServer.listen env s address port).1 = env.bindSucceeds address port ∧
    (DtlsServer.listen env s address port).2.1.isListening
      = (DtlsServer.listen env s address port).1 ∧
    (DtlsServer.listen env s address port).2.2.filter Action.isSocketBind
      = [Action.socketBind address port] ∧
    ((∃ m, Action.errorMessage m ∈ (DtlsServer.listen env s address port).2.2)
      ↔ env.bindSucceeds address port = false) ∧
    (env.bindSucceeds address port = false →
      ((DtlsServer.listen env s address port).2.2.filter Action.isErrorMessage).length = 1 ∧
      (DtlsServer.listen env s address port).1 = false ∧
      (DtlsServer.listen env s address port).2.1.isListening = false) := by
  have hsd : ∀ l : List QDtls, ∀ rest : List Action,
      (l.map Action.engineShutdown ++ rest).filter Action.isSocketBind
        = rest.filter Action.isSocketBind := by
    intro l rest
    rw [List.filter_append]
    induction l with
    | nil => rfl
    | cons c cs ih => simp [List.filter_cons, Action.isSocketBind]
  have hmem : ∀ l : List QDtls, ∀ m, Action.errorMessage m ∉ l.map Action.engineShutdown := by
    intro l m hm
    simp at hm
  cases hbs : env.bindSucceeds address port
  · simp [DtlsServer.listen, h, DtlsServer.shutdown, QUdpSocket.bind, QUdpSocket.close, hbs,
      DtlsServer.isListening, List.append_assoc, shutdown_filter_engineShutdown,
      shutdown_filter_errorMessage, hsd, Action.isEngineShutdown, Action.isErrorMessage,
      Action.isSocketBind, List.filter_cons]
  · simp [DtlsServer.listen, h, DtlsServer.shutdown, QUdpSocket.bind, QUdpSocket.close, hbs,
      DtlsServer.isListening, List.append_assoc, shutdown_filter_engineShutdown,
      shutdown_filter_errorMessage, hsd, Action.isEngineShutdown, Action.isErrorMessage,
      Action.isSocketBind, List.filter_cons]

theorem listen_other_endpoint_witness :
    (DtlsServer.listen envReject (twoSessions []) (QHostAddress.ip 2) 9000).2.2.filter
        Action.isEngineShutdown
      = [Action.engineShutdown (sampleEngine 40000 true),
         Action.engineShutdown (sampleEngine 40001 true)] ∧
    (DtlsServer.listen envReject (twoSessions []) (QHostAddress.ip 2) 9000).2.1.knownClients
      = [] ∧
    (DtlsServer.listen envReject (twoSessions []) (QHostAddress.ip 2) 9000).1 = false := by
  have h := listen_other_endpoint envReject (twoSessions []) (QHostAddress.ip 2) 9000
    (Or.inl (by decide))
  exact ⟨h.1, h.2.1, h.2.2.2.1⟩

/-- C7, as the code has it: `shutdown` sends every record one close notification, empties
`knownClients` and closes the socket, and leaves the `listening` flag as it was, so
`isListening` reports after the call what it reported before it. -/
theorem shutdown_keeps_listening (s : DtlsServer) :
    (DtlsServer.shutdown s).1.isListening = s.isListening ∧
    (DtlsServer.shutdown s).1.knownClients = [] ∧
    (DtlsServer.shutdown s).2.filter Action.isEngineShutdown
      = s.knownClients.map Action.engineShutdown ∧
    (DtlsServer.shutdown s).1.serverSocket.bound = false := by
  refine ⟨rfl, rfl, ?_, rfl⟩
  exact shutdown_filter_engineShutdown s.knownClients [Action.socketClose] rfl

/-- C7, the claim as stated fails: on a listening server with two active sessions,
`isListening` still returns true after `shutdown`. -/
theorem shutdown_still_listening :
    (twoSessions []).isListening = true ∧
    (twoSessions []).knownClients.length = 2 ∧
    ¬ ((DtlsServer.shutdown (twoSessions [])).1.isListening = false) := by
  refine ⟨rfl, rfl, ?_⟩
  simp [DtlsServer.shutdown, DtlsServer.isListening, twoSessions]

/-- C10: whenever the requested endpoint equals the socket's local endpoint, `listen` returns
true and sets `listening` without any bind attempt (it calls and emits nothing) and without
looking at whether the socket is bound, which it leaves as it was.  So on a freshly
constructed server, and on any server after `shutdown`, whose socket reports the null
address and port 0, `listen(null, 0)` returns true and `isListening` is true although the
socket is unbound. -/
theorem listen_same_endpoint_no_bind (env : Env) :
    (∀ (s : DtlsServer) (address : QHostAddress) (port : Nat),
      address = s.serverSocket.localAddress → port = s.serverSocket.localPort →
        (DtlsServer.listen env s address port).1 = true ∧
        (DtlsServer.listen env s address port).2.1.isListening = true ∧
        (DtlsServer.listen env s address port).2.2.filter Action.isSocketBind = [] ∧
        (DtlsServer.listen env s address port).2.2 = [] ∧
        (DtlsServer.listen env s address port).2.1.serverSocket = s.serverSocket) ∧
    ((DtlsServer.listen env DtlsServer.init QHostAddress.null 0).1 = true ∧
      (DtlsServer.listen env DtlsServer.init QHostAddress.null 0).2.1.isListening = true ∧
      (DtlsServer.listen env DtlsServer.init QHostAddress.null 0).2.1.serverSocket.bound
        = false) ∧
    (∀ s : DtlsServer,
      (DtlsServer.listen env (DtlsServer.shutdown s).1 QHostAddress.null 0).1 = true ∧
      (DtlsServer.listen env (DtlsServer.shutdown s).1 QHostAddress.null 0).2.1.isListening
        = true ∧
      (DtlsServer.listen env (DtlsServer.shutdown s).1
        QHostAddress.null 0).2.1.serverSocket.bound = false) := by
  refine ⟨?_, ?_, ?_⟩
  · intro s address port ha hp
    subst ha hp
    simp [DtlsServer.listen, DtlsServer.isListening]
  · simp [DtlsServer.listen, DtlsServer.isListening, DtlsServer.init]
  · intro s
    simp [DtlsServer.listen, DtlsServer.isListening, DtlsServer.shutdown, QUdpSocket.close]

theorem listen_same_endpoint_no_bind_witness :
    (twoSessions []).serverSocket.bound = true ∧
    (DtlsServer.listen envReject (twoSessions []) (QHostAddress.ip 1) 9000).1 = true ∧
    (DtlsServer.listen envReject (twoSessions []) (QHostAddress.ip 1) 9000).2.2 = [] ∧
    (DtlsServer.listen envReject DtlsServer.init QHostAddress.null 0).1 = true ∧
    (DtlsServer.listen envReject DtlsServer.init QHostAddress.null 0).2.1.serverSocket.bound
      = false :=
  ⟨rfl,
   ((listen_same_endpoint_no_bind envReject).1 (twoSessions []) (QHostAddress.ip 1) 9000
      rfl rfl).1,
   ((listen_same_endpoint_no_bind envReject).1 (twoSessions []) (QHostAddress.ip 1) 9000
      rfl rfl).2.2.2.1,
   (listen_same_endpoint_no_bind envReject).2.1.1,
   (listen_same_endpoint_no_bind envReject).2.1.2.2⟩

/-! ## The dispatcher: `readyRead` -/

theorem set_last_of_append {α : Type} (l : List α) (a b : α) :
    (l ++ [a]).set ((l ++ [a]).length - 1) b = l ++ [b] := by
  induction l with
  | nil => rfl
  | cons x xs ih =>
    have h : (x :: xs ++ [a]).length - 1 = ((xs ++ [a]).length - 1) + 1 := by
      simp
    rw [h]
    simp [ih]

theorem doHandshake_engine (env : Env) (c : QDtls) (d : QByteArray) :
    (DtlsServer.doHandshake env c d).1 = (env.doHandshake c d).2 := by
  simp only [DtlsServer.doHandshake]
  split
  · rfl
  · split <;> rfl

theorem doHandshake_no_verify (env : Env) (c : QDtls) (d : QByteArray) :
    (DtlsServer.doHandshake env c d).2.filter Action.isVerifyClient = [] := by
  simp only [DtlsServer.doHandshake]
  split
  · rfl
  · split <;> rfl

/-- What `decryptDatagram` does, in its three cases. -/
theorem decryptDatagram_eq (env : Env) (c : QDtls) (d : QByteArray) :
    DtlsServer.decryptDatagram env c d =
      if (env.decryptDatagram c d).1 ≠ [] then
        (env.writeDatagramEncrypted (env.decryptDatagram c d).2
            (peer_info c.peerAddress c.peerPort),
         [Action.engineDecryptDatagram c d,
          Action.datagramReceived (peer_info c.peerAddress c.peerPort) d
            (env.decryptDatagram c d).1,
          Action.engineWriteDatagramEncrypted (env.decryptDatagram c d).2
            (peer_info c.peerAddress c.peerPort)])
      else if (env.decryptDatagram c d).2.dtlsError = QDtlsError.NoError then
        ((env.decryptDatagram c d).2,
         [Action.engineDecryptDatagram c d,
          Action.warningMessage (Message.zeroByteDgram (peer_info c.peerAddress c.peerPort))])
      else
        ((env.decryptDatagram c d).2,
         [Action.engineDecryptDatagram c d,
          Action.errorMessage (Message.peerError (peer_info c.peerAddress c.peerPort)
            (env.decryptDatagram c d).2.dtlsErrorString)]) := by
  simp only [DtlsServer.decryptDatagram, ne_eq, List.length_eq_zero]

theorem decryptDatagram_no_verify (env : Env) (c : QDtls) (d : QByteArray) :
    (DtlsServer.decryptDatagram env c d).2.filter Action.isVerifyClient = [] := by
  rw [decryptDatagram_eq]
  split
  · rfl
  · split <;> rfl

theorem decryptDatagram_endpoint (env : Env) (hk : env.KeepsPeer) (c : QDtls)
    (d : QByteArray) : (DtlsServer.decryptDatagram env c d).1.endpoint = c.endpoint := by
  rw [decryptDatagram_eq]
  split
  · simp only []
    rw [hk.2.2, hk.2.1]
  · split <;> exact hk.2.1 c d

theorem doHandshake_endpoint (env : Env) (hk : env.KeepsPeer) (c : QDtls)
    (d : QByteArray) : (DtlsServer.doHandshake env c d).1.endpoint = c.endpoint := by
  rw [doHandshake_engine]
  exact hk.1 c d

/-- What `handleNewConnection` does, with the table written as a list. -/
theorem handleNewConnection_eq (env : Env) (s : DtlsServer) (address : QHostAddress)
    (port : Nat) (d : QByteArray) :
    DtlsServer.handleNewConnection env s address port d =
      if s.listening = false then (s, [])
      else if (env.verifyClient s.cookieSender d address port).1 = true then
        ({ s with
            cookieSender := (env.verifyClient s.cookieSender d address port).2,
            knownClients := s.knownClients ++
              [(env.doHandshake
                ((QDtls.new.setDtlsConfiguration s.serverConfiguration).setPeer address port)
                d).2] },
         [Action.verifyClient d address port,
          Action.infoMessage (Message.verified (peer_info address port))] ++
          (DtlsServer.doHandshake env
            ((QDtls.new.setDtlsConfiguration s.serverConfiguration).setPeer address port)
            d).2)
      else if (env.verifyClient s.cookieSender d address port).2.dtlsError
          ≠ QDtlsError.NoError then
        ({ s with cookieSender := (env.verifyClient s.cookieSender d address port).2 },
         [Action.verifyClient d address port,
          Action.errorMessage (Message.dtlsError
            (env.verifyClient s.cookieSender d address port).2.dtlsErrorString)])
      else
        ({ s with cookieSender := (env.verifyClient s.cookieSender d address port).2 },
         [Action.verifyClient d address port,
          Action.infoMessage (Message.notVerifiedYet (peer_info address port))]) := by
  unfold DtlsServer.handleNewConnection
  cases hl : s.listening
  · simp
  · cases hv : (env.verifyClient s.cookieSender d address port).1
    · simp [hv]
    · simp only [hv, set_last_of_append, doHandshake_engine]
      simp

theorem isPeer_iff (address : QHostAddress) (port : Nat) (c : QDtls) :
    DtlsServer.isPeer address port c = true ↔ c.endpoint = (address, port) := by
  simp [DtlsServer.isPeer, QDtls.endpoint]

theorem isNull_eq_false (address : QHostAddress) (h : address ≠ QHostAddress.null) :
    address.isNull = false := by
  cases address with
  | null => exact absurd rfl h
  | ip a => rfl

theorem validSender (d : Datagram) (ha : d.senderAddress ≠ QHostAddress.null)
    (hp : d.senderPort ≠ 0) : (d.senderAddress.isNull || d.senderPort == 0) = false := by
  simp [isNull_eq_false _ ha, hp]

theorem find_if_isPeer_none (address : QHostAddress) (port : Nat) (l : List QDtls) :
    find_if (DtlsServer.isPeer address port) l = none
      ↔ (address, port) ∉ l.map QDtls.endpoint := by
  rw [find_if_eq_none]
  constructor
  · intro h hm
    obtain ⟨c, hc, he⟩ := List.mem_map.1 hm
    have := h c hc
    rw [(isPeer_iff address port c).2 he] at this
    exact Bool.noConfusion this
  · intro h c hc
    cases hp : DtlsServer.isPeer address port c
    · rfl
    · exact absurd (List.mem_map.2 ⟨c, hc, (isPeer_iff address port c).1 hp⟩) h

theorem set_eq_self {α : Type} (l : List α) (i : Nat) (a : α) (h : l[i]? = some a) :
    l.set i a = l := by
  induction l generalizing i with
  | nil => rfl
  | cons x xs ih =>
    cases i with
    | zero => simp at h; simp [h]
    | succ k => simp at h; simp [ih k h]

theorem eraseIdx_set_self {α : Type} (l : List α) (i : Nat) (a : α) :
    (l.set i a).eraseIdx i = l.eraseIdx i := by
  induction l generalizing i with
  | nil => rfl
  | cons x xs ih =>
    cases i with
    | zero => rfl
    | succ k => simp [ih k]

theorem map_eraseIdx_comm {α β : Type} (f : α → β) (l : List α) (i : Nat) :
    (l.eraseIdx i).map f = (l.map f).eraseIdx i := by
  induction l generalizing i with
  | nil => rfl
  | cons x xs ih =>
    cases i with
    | zero => rfl
    | succ k => simp [ih k]

/-- Writing an engine with the same endpoint back to the slot it was found in leaves the
list of endpoints as it was. -/
theorem map_endpoint_set (l : List QDtls) (i : Nat) (c c2 : QDtls)
    (hi : l[i]? = some c) (he : c2.endpoint = c.endpoint) :
    (l.set i c2).map QDtls.endpoint = l.map QDtls.endpoint := by
  rw [List.map_set, he]
  apply set_eq_self
  simp [hi]

/-- With unique endpoints, the endpoint found by the lookup is gone once its slot is
erased. -/
theorem find_if_eraseIdx_none (address : QHostAddress) (port : Nat) (l : List QDtls)
    (i : Nat) (c : QDtls) (hn : (l.map QDtls.endpoint).Nodup)
    (hf : find_if (DtlsServer.isPeer address port) l = some (i, c)) :
    find_if (DtlsServer.isPeer address port) (l.eraseIdx i) = none := by
  induction l generalizing i with
  | nil => simp [find_if] at hf
  | cons a as ih =>
    rw [List.map_cons, List.nodup_cons] at hn
    by_cases ha : DtlsServer.isPeer address port a = true
    · simp only [find_if, ha, if_true, Option.some.injEq, Prod.mk.injEq] at hf
      obtain ⟨rfl, rfl⟩ := hf
      rw [List.eraseIdx_cons_zero, find_if_isPeer_none]
      rw [← (isPeer_iff address port a).1 ha]
      exact hn.1
    · have ha2 : DtlsServer.isPeer address port a = false := by simpa using ha
      simp only [find_if, ha2] at hf
      cases hfa : find_if (DtlsServer.isPeer address port) as with
      | none => simp [hfa] at hf
      | some r =>
        obtain ⟨k, y⟩ := r
        simp [hfa] at hf
        obtain ⟨rfl, rfl⟩ := hf
        simp [find_if, ha2, ih k hn.2 hfa]

/-- The endpoints in the table after a `readyRead`, for engines that keep their peer: the
same list, or the list with the sender's endpoint (not in it before) appended, or the list
with the sender's slot erased, which happens only for an established session whose engine
reports that the peer closed the connection. -/
theorem readyRead_endpoints (env : Env) (hk : env.KeepsPeer) (s : DtlsServer) :
    (DtlsServer.readyRead env s).1.knownClients.map QDtls.endpoint
        = s.knownClients.map QDtls.endpoint ∨
    (∃ d rest, s.serverSocket.pending = d :: rest ∧
      (d.senderAddress, d.senderPort) ∉ s.knownClients.map QDtls.endpoint ∧
      (DtlsServer.readyRead env s).1.knownClients.map QDtls.endpoint
        = s.knownClients.map QDtls.endpoint ++ [(d.senderAddress, d.senderPort)]) ∨
    (∃ d rest i c, s.serverSocket.pending = d :: rest ∧
      find_if (DtlsServer.isPeer d.senderAddress d.senderPort) s.knownClients = some (i, c) ∧
      c.isConnectionEncrypted = true ∧
      (DtlsServer.decryptDatagram env c d.data).1.dtlsError
        = QDtlsError.RemoteClosedConnectionError ∧
      (DtlsServer.readyRead env s).1.knownClients.map QDtls.endpoint
        = (s.knownClients.map QDtls.endpoint).eraseIdx i) := by
  cases hq : s.serverSocket.pending with
  | nil => left; rw [readyRead_nothing_pending env s hq]
  | cons d rest =>
    by_cases hd : d.data = []
    · left; rw [readyRead_zero_length env s d rest hq hd]
    · rw [readyRead_head env s d rest hq hd]
      split
      · left; rfl
      · split
        · rename_i hnone
          rw [handleNewConnection_eq]
          split
          · left; rfl
          · split
            · right; left
              refine ⟨d, rest, rfl, (find_if_isPeer_none _ _ _).1 hnone, ?_⟩
              simp only [List.map_append, List.map_cons, List.map_nil]
              rw [hk.1]
              rfl
            · split <;> (left; rfl)
        · rename_i i client hsome
          obtain ⟨hi, hp, _⟩ := find_if_some _ _ _ _ hsome
          split
          · rename_i henc
            split
            · rename_i herr
              right; right
              refine ⟨d, rest, i, client, rfl, hsome, henc, herr, ?_⟩
              simp only [eraseIdx_set_self, map_eraseIdx_comm]
            · left
              exact map_endpoint_set _ _ _ _ hi (decryptDatagram_endpoint env hk _ _)
          · left
            exact map_endpoint_set _ _ _ _ hi (doHandshake_endpoint env hk _ _)

theorem find_if_of_getElem (address : QHostAddress) (port : Nat) (l : List QDtls)
    (i : Nat) (c : QDtls) (hn : (l.map QDtls.endpoint).Nodup)
    (hi : l[i]? = some c) (he : c.endpoint = (address, port)) :
    find_if (DtlsServer.isPeer address port) l = some (i, c) := by
  induction l generalizing i with
  | nil => simp at hi
  | cons a as ih =>
    rw [List.map_cons, List.nodup_cons] at hn
    cases i with
    | zero =>
      simp at hi
      subst hi
      simp [find_if, (isPeer_iff address port a).2 he]
    | succ k =>
      simp at hi
      have hmem : c.endpoint ∈ as.map QDtls.endpoint :=
        List.mem_map.2 ⟨c, List.mem_iff_getElem?.2 ⟨k, hi⟩, rfl⟩
      have ha : DtlsServer.isPeer address port a = false := by
        cases hpa : DtlsServer.isPeer address port a
        · rfl
        · have hae := (isPeer_iff address port a).1 hpa
          rw [he, ← hae] at hmem
          exact absurd hmem hn.1
      simp [find_if, ha, ih k hn.2 hi]

theorem envAccept_keepsPeer : envAccept.KeepsPeer :=
  ⟨fun _ _ => rfl, fun _ _ => rfl, fun _ _ => rfl⟩

theorem envReject_keepsPeer : envReject.KeepsPeer :=
  ⟨fun _ _ => rfl, fun _ _ => rfl, fun _ _ => rfl⟩

theorem handleNewConnection_socket (env : Env) (s : DtlsServer) (address : QHostAddress)
    (port : Nat) (d : QByteArray) :
    (DtlsServer.handleNewConnection env s address port d).1.serverSocket = s.serverSocket := by
  rw [handleNewConnection_eq]
  split
  · rfl
  · split
    · rfl
    · split <;> rfl

/-- A non-empty datagram at the head of the queue is removed by `readyRead`, and nothing
else is. -/
theorem readyRead_drains_nonempty_head (env : Env) (s : DtlsServer) (d : Datagram)
    (rest : List Datagram) (hq : s.serverSocket.pending = d :: rest) (hd : d.data ≠ []) :
    (DtlsServer.readyRead env s).1.serverSocket.pending = rest := by
  rw [readyRead_head env s d rest hq hd]
  split
  · rfl
  · split
    · rw [handleNewConnection_socket]
    · split
      · split <;> rfl
      · rfl

/-- C9 at the failing input: with a zero-length datagram at the head of the queue (and a
second datagram behind it) `readyRead` takes the branch of the spurious notification and
removes nothing, so the queue, and with it the whole server, is the same after one dispatch
and after two; the datagram behind the empty one is never reached. -/
theorem readyRead_zero_length_not_drained :
    (DtlsServer.readyRead envAccept
        (twoSessions [sampleDatagram [] 40002, sampleDatagram [23, 1] 40000])).1.serverSocket.pending
      = [sampleDatagram [] 40002, sampleDatagram [23, 1] 40000] ∧
    (DtlsServer.readyRead envAccept
        (twoSessions [sampleDatagram [] 40002, sampleDatagram [23, 1] 40000])).2
      = [Action.warningMessage Message.spuriousRead] ∧
    (DtlsServer.readyRead envAccept
        (DtlsServer.readyRead envAccept
          (twoSessions [sampleDatagram [] 40002, sampleDatagram [23, 1] 40000])).1).1
      = twoSessions [sampleDatagram [] 40002, sampleDatagram [23, 1] 40000] := by
  have h := readyRead_zero_length envAccept
    (twoSessions [sampleDatagram [] 40002, sampleDatagram [23, 1] 40000])
    (sampleDatagram [] 40002) [sampleDatagram [23, 1] 40000] rfl rfl
  refine ⟨?_, ?_, ?_⟩
  · rw [h]
    rfl
  · rw [h]
  · rw [h]
    exact congrArg Prod.fst h

/-- C2: a non-empty datagram from a valid endpoint E that no record of `knownClients` has,
dispatched while listening, makes `readyRead` call the verifier exactly once (on that
datagram and endpoint).  When the verifier accepts, `knownClients` afterwards is the old
table followed by exactly one record, the engine created with `setPeer(E)` after its first
handshake step, whose endpoint is E for an engine that keeps its peer.  When the verifier
does not accept (pending or internal error), `knownClients` is unchanged. -/
theorem readyRead_unknown_sender (env : Env) (s : DtlsServer) (d : Datagram)
    (rest : List Datagram)
    (hl : s.listening = true)
    (hq : s.serverSocket.pending = d :: rest)
    (hd : d.data ≠ [])
    (ha : d.senderAddress ≠ QHostAddress.null) (hp : d.senderPort ≠ 0)
    (hmiss : (d.senderAddress, d.senderPort) ∉ s.knownClients.map QDtls.endpoint) :
    (DtlsServer.readyRead env s).2.filter Action.isVerifyClient
      = [Action.verifyClient d.data d.senderAddress d.senderPort] ∧
    ((env.verifyClient s.cookieSender d.data d.senderAddress d.senderPort).1 = true →
      (DtlsServer.readyRead env s).1.knownClients
        = s.knownClients ++
          [(env.doHandshake
            ((QDtls.new.setDtlsConfiguration s.serverConfiguration).setPeer
              d.senderAddress d.senderPort) d.data).2] ∧
      (DtlsServer.readyRead env s).1.knownClients.length = s.knownClients.length + 1 ∧
      (env.KeepsPeer →
        ∃ c, (DtlsServer.readyRead env s).1.knownClients = s.knownClients ++ [c] ∧
          c.endpoint = (d.senderAddress, d.senderPort))) ∧
    ((env.verifyClient s.cookieSender d.data d.senderAddress d.senderPort).1 = false →
      (DtlsServer.readyRead env s).1.knownClients = s.knownClients) := by
  have hnone := (find_if_isPeer_none d.senderAddress d.senderPort s.knownClients).2 hmiss
  rw [readyRead_head env s d rest hq hd, validSender d ha hp]
  simp only [hnone, Bool.false_eq_true, if_false]
  rw [handleNewConnection_eq]
  simp only [hl, Bool.true_eq_false, if_false]
  cases hv : (env.verifyClient s.cookieSender d.data d.senderAddress d.senderPort).1
  · simp only [Bool.false_eq_true, if_false, false_implies, true_and, true_implies]
    split <;> simp [List.filter_cons, Action.isVerifyClient]
  · simp only [if_true, true_implies, Bool.true_eq_false, false_implies, and_true,
      List.length_append, List.length_singleton]
    refine ⟨?_, trivial, trivial, ?_⟩
    · simp [List.filter_cons, Action.isVerifyClient, doHandshake_no_verify]
    · intro hk
      exact ⟨_, rfl, hk.1 _ _⟩

theorem readyRead_unknown_sender_witness :
    (DtlsServer.readyRead envAccept
        (twoSessions [sampleDatagram [22, 254, 253] 40002])).2.filter Action.isVerifyClient
      = [Action.verifyClient [22, 254, 253] (QHostAddress.ip 1) 40002] ∧
    ((DtlsServer.readyRead envAccept
        (twoSessions [sampleDatagram [22, 254, 253] 40002])).1.knownClients.map QDtls.endpoint
      = [(QHostAddress.ip 1, 40000), (QHostAddress.ip 1, 40001), (QHostAddress.ip 1, 40002)]) ∧
    (DtlsServer.readyRead envReject
        (twoSessions [sampleDatagram [22, 254, 253] 40002])).1.knownClients
      = (twoSessions [sampleDatagram [22, 254, 253] 40002]).knownClients := by
  have h1 := readyRead_unknown_sender envAccept
    (twoSessions [sampleDatagram [22, 254, 253] 40002]) (sampleDatagram [22, 254, 253] 40002) []
    rfl rfl (by decide) (by decide) (by decide) (by decide)
  have h2 := readyRead_unknown_sender envReject
    (twoSessions [sampleDatagram [22, 254, 253] 40002]) (sampleDatagram [22, 254, 253] 40002) []
    rfl rfl (by decide) (by decide) (by decide) (by decide)
  refine ⟨h1.1, ?_, h2.2.2 rfl⟩
  rw [(h1.2.1 rfl).1]
  rfl

/-- C3: after `close()`, whatever datagram is at the head of the queue: when no record of
`knownClients` has its sender endpoint, `readyRead` leaves `knownClients` as it was and
never calls the verifier; when the lookup of its sender finds an established record and the
datagram reaches the engine (it is non-empty and names its sender), the engine is asked to
decrypt it, and a non-empty plaintext is reported by a `datagramReceived` event whose peer
info holds the address and the port of that record (which are the sender's), and which
carries the ciphertext and the plaintext; the whole dispatch is then the decryption, that
event, and the acknowledgement written to the same peer. -/
theorem readyRead_after_close (env : Env) (s : DtlsServer) (d : Datagram)
    (rest : List Datagram) (hq : s.serverSocket.pending = d :: rest) :
    ((d.senderAddress, d.senderPort) ∉ s.knownClients.map QDtls.endpoint →
      (DtlsServer.readyRead env (DtlsServer.close s)).1.knownClients = s.knownClients ∧
      (DtlsServer.readyRead env (DtlsServer.close s)).2.filter Action.isVerifyClient = []) ∧
    (∀ (i : Nat) (c : QDtls),
      find_if (DtlsServer.isPeer d.senderAddress d.senderPort) s.knownClients = some (i, c) →
      c.isConnectionEncrypted = true →
      d.data ≠ [] → d.senderAddress ≠ QHostAddress.null → d.senderPort ≠ 0 →
        c.peerAddress = d.senderAddress ∧ c.peerPort = d.senderPort ∧
        Action.engineDecryptDatagram c d.data
          ∈ (DtlsServer.readyRead env (DtlsServer.close s)).2 ∧
        ((env.decryptDatagram c d.data).1 ≠ [] →
          Action.datagramReceived { address := c.peerAddress, port := c.peerPort } d.data
              (env.decryptDatagram c d.data).1
            ∈ (DtlsServer.readyRead env (DtlsServer.close s)).2 ∧
          Action.datagramReceived { address := d.senderAddress, port := d.senderPort } d.data
              (env.decryptDatagram c d.data).1
            ∈ (DtlsServer.readyRead env (DtlsServer.close s)).2 ∧
          (DtlsServer.readyRead env (DtlsServer.close s)).2
            = [Action.engineDecryptDatagram c d.data,
               Action.datagramReceived { address := d.senderAddress, port := d.senderPort }
                 d.data (env.decryptDatagram c d.data).1,
               Action.engineWriteDatagramEncrypted (env.decryptDatagram c d.data).2
                 { address := d.senderAddress, port := d.senderPort }])) := by
  have hq2 : (DtlsServer.close s).serverSocket.pending = d :: rest := hq
  have hk : (DtlsServer.close s).knownClients = s.knownClients := rfl
  constructor
  · intro hmiss
    have hnone := (find_if_isPeer_none d.senderAddress d.senderPort s.knownClients).2 hmiss
    by_cases hd : d.data = []
    · rw [readyRead_zero_length env _ d rest hq2 hd]
      exact ⟨rfl, rfl⟩
    · rw [readyRead_head env _ d rest hq2 hd]
      split
      · exact ⟨rfl, rfl⟩
      · simp only [hk, hnone]
        rw [handleNewConnection_eq]
        exact ⟨rfl, rfl⟩
  · intro i c hf henc hd ha hp
    have h3 := (isPeer_iff _ _ _).1 (find_if_some _ _ _ _ hf).2.1
    simp only [QDtls.endpoint, Prod.mk.injEq] at h3
    obtain ⟨hca, hcp⟩ := h3
    refine ⟨hca, hcp, ?_⟩
    rw [readyRead_head env _ d rest hq2 hd, validSender d ha hp]
    simp only [hk, hf, henc, Bool.false_eq_true, if_false, if_true]
    have hmem : Action.engineDecryptDatagram c d.data
          ∈ (DtlsServer.decryptDatagram env c d.data).2 ∧
        ((env.decryptDatagram c d.data).1 ≠ [] →
          Action.datagramReceived { address := c.peerAddress, port := c.peerPort } d.data
              (env.decryptDatagram c d.data).1
            ∈ (DtlsServer.decryptDatagram env c d.data).2 ∧
          Action.datagramReceived { address := d.senderAddress, port := d.senderPort } d.data
              (env.decryptDatagram c d.data).1
            ∈ (DtlsServer.decryptDatagram env c d.data).2 ∧
          (DtlsServer.decryptDatagram env c d.data).2
            = [Action.engineDecryptDatagram c d.data,
               Action.datagramReceived { address := d.senderAddress, port := d.senderPort }
                 d.data (env.decryptDatagram c d.data).1,
               Action.engineWriteDatagramEncrypted (env.decryptDatagram c d.data).2
                 { address := d.senderAddress, port := d.senderPort }]) := by
      rw [decryptDatagram_eq]
      simp only [peer_info, hca, hcp]
      split
      · simp
      · rename_i hne
        split <;> simp [hne]
    split <;> exact hmem

theorem readyRead_after_close_witness :
    (DtlsServer.readyRead envAccept
        (DtlsServer.close (twoSessions [sampleDatagram [22, 254, 253] 40002]))).1.knownClients
      = (twoSessions [sampleDatagram [22, 254, 253] 40002]).knownClients ∧
    (DtlsServer.readyRead envAccept
        (DtlsServer.close (twoSessions [sampleDatagram [22, 254, 253] 40002]))).2.filter
          Action.isVerifyClient = [] ∧
    Action.datagramReceived { address := QHostAddress.ip 1, port := 40001 } [23, 7] [23, 7]
      ∈ (DtlsServer.readyRead envAccept
          (DtlsServer.close (twoSessions [sampleDatagram [23, 7] 40001]))).2 := by
  have h1 := (readyRead_after_close envAccept
    (twoSessions [sampleDatagram [22, 254, 253] 40002]) (sampleDatagram [22, 254, 253] 40002) []
    rfl).1 (by decide)
  have h2 := (readyRead_after_close envAccept
    (twoSessions [sampleDatagram [23, 7] 40001]) (sampleDatagram [23, 7] 40001) []
    rfl).2 1 (sampleEngine 40001 true) rfl rfl (by decide) (by decide) (by decide)
  exact ⟨h1.1, h1.2, (h2.2.2.2 (by decide)).2.1⟩

/-- C4: let P be an established record of a table with unique endpoints, and let the datagram
at the head of the queue come from P and reach the engine (non-empty, sender named).  When
decryption yields empty plaintext and the engine error `RemoteClosedConnectionError`,
`readyRead` emits exactly one error event (the one naming P), the table afterwards is the
old one with P's slot erased, so every other record stays, in the same order, and a lookup
of P's endpoint in it misses. -/
theorem readyRead_peer_closed (env : Env) (s : DtlsServer) (d : Datagram)
    (rest : List Datagram) (i : Nat) (P : QDtls)
    (hn : (s.knownClients.map QDtls.endpoint).Nodup)
    (hP : s.knownClients[i]? = some P)
    (henc : P.isConnectionEncrypted = true)
    (hq : s.serverSocket.pending = d :: rest)
    (hfrom : P.endpoint = (d.senderAddress, d.senderPort))
    (hd : d.data ≠ []) (ha : d.senderAddress ≠ QHostAddress.null) (hp : d.senderPort ≠ 0)
    (hplain : (env.decryptDatagram P d.data).1 = [])
    (herr : (env.decryptDatagram P d.data).2.dtlsError
      = QDtlsError.RemoteClosedConnectionError) :
    (DtlsServer.readyRead env s).2.filter Action.isErrorMessage
      = [Action.errorMessage (Message.peerError (peer_info P.peerAddress P.peerPort)
          (env.decryptDatagram P d.data).2.dtlsErrorString)] ∧
    (DtlsServer.readyRead env s).1.knownClients = s.knownClients.eraseIdx i ∧
    find_if (DtlsServer.isPeer P.peerAddress P.peerPort)
      (DtlsServer.readyRead env s).1.knownClients = none ∧
    P.endpoint ∉ (DtlsServer.readyRead env s).1.knownClients.map QDtls.endpoint := by
  have hf := find_if_of_getElem d.senderAddress d.senderPort s.knownClients i P hn hP hfrom
  have hdec : DtlsServer.decryptDatagram env P d.data
      = ((env.decryptDatagram P d.data).2,
         [Action.engineDecryptDatagram P d.data,
          Action.errorMessage (Message.peerError (peer_info P.peerAddress P.peerPort)
            (env.decryptDatagram P d.data).2.dtlsErrorString)]) := by
    rw [decryptDatagram_eq]
    simp [hplain, herr]
  have hnone := find_if_eraseIdx_none d.senderAddress d.senderPort s.knownClients i P hn hf
  have hPa : P.peerAddress = d.senderAddress := congrArg Prod.fst hfrom
  have hPp : P.peerPort = d.senderPort := congrArg Prod.snd hfrom
  rw [readyRead_head env s d rest hq hd, validSender d ha hp]
  simp only [hf, henc, hdec, herr, Bool.false_eq_true, if_false, if_true, eraseIdx_set_self]
  refine ⟨rfl, trivial, ?_, ?_⟩
  · rw [hPa, hPp]
    exact hnone
  · rw [hfrom]
    exact (find_if_isPeer_none _ _ _).1 hnone

theorem readyRead_peer_closed_witness :
    (DtlsServer.readyRead envReject
        (twoSessions [sampleDatagram [21, 0] 40000])).1.knownClients
      = [sampleEngine 40001 true] ∧
    ((DtlsServer.readyRead envReject
        (twoSessions [sampleDatagram [21, 0] 40000])).2.filter Action.isErrorMessage).length
      = 1 ∧
    find_if (DtlsServer.isPeer (QHostAddress.ip 1) 40000)
      (DtlsServer.readyRead envReject
        (twoSessions [sampleDatagram [21, 0] 40000])).1.knownClients = none := by
  have h := readyRead_peer_closed envReject (twoSessions [sampleDatagram [21, 0] 40000])
    (sampleDatagram [21, 0] 40000) [] 0 (sampleEngine 40000 true)
    (by decide) rfl rfl rfl rfl (by decide) (by decide) (by decide) rfl rfl
  refine ⟨h.2.1, ?_, h.2.2.1⟩
  rw [h.1]
  rfl

theorem getElem?_of_mem_not_mem_eraseIdx {α : Type} (l : List α) (i : Nat) (e : α)
    (hin : e ∈ l) (hout : e ∉ l.eraseIdx i) : l[i]? = some e := by
  obtain ⟨n, hn⟩ := List.mem_iff_getElem?.1 hin
  by_cases hni : n = i
  · rw [← hni]; exact hn
  · exact absurd (List.mem_eraseIdx_iff_getElem?.2 ⟨n, hni, hn⟩) hout

/-- A datagram whose sender the lookup finds, and which does not end in the erasure of the
sender's slot, leaves every slot of the table in place: only the engine in the sender's slot
is replaced by its own next state. -/
theorem readyRead_hit_keeps_slots (env : Env) (s : DtlsServer) (d : Datagram)
    (rest : List Datagram) (i : Nat) (c : QDtls)
    (hq : s.serverSocket.pending = d :: rest)
    (hf : find_if (DtlsServer.isPeer d.senderAddress d.senderPort) s.knownClients
      = some (i, c))
    (hno : ¬ (c.isConnectionEncrypted = true ∧
      (DtlsServer.decryptDatagram env c d.data).1.dtlsError
        = QDtlsError.RemoteClosedConnectionError)) :
    ∃ c2, (DtlsServer.readyRead env s).1.knownClients = s.knownClients.set i c2 ∧
      (env.KeepsPeer → c2.endpoint = c.endpoint) := by
  have hi := (find_if_some _ _ _ _ hf).1
  by_cases hd : d.data = []
  · rw [readyRead_zero_length env s d rest hq hd]
    exact ⟨c, (set_eq_self _ _ _ hi).symm, fun _ => rfl⟩
  · rw [readyRead_head env s d rest hq hd]
    split
    · exact ⟨c, (set_eq_self _ _ _ hi).symm, fun _ => rfl⟩
    · simp only [hf]
      split
      · rename_i henc
        split
        · rename_i herr
          exact absurd ⟨henc, herr⟩ hno
        · exact ⟨_, rfl, fun hk => decryptDatagram_endpoint env hk _ _⟩
      · exact ⟨_, rfl, fun hk => doHandshake_endpoint env hk _ _⟩

/-- C8: with engines that keep their peer endpoint, a `readyRead` dispatch removes a record
only on peer-initiated close of an established session.  If an endpoint of the table before
the dispatch is not in the table after it, then it is the sender of the datagram at the head
of the queue, the record the lookup finds for it was established when the datagram arrived,
and that engine's error when `decryptDatagram` returns is `RemoteClosedConnectionError`.
In particular, for a datagram whose sender the lookup finds in slot `i`: a failed handshake
step, decryption ending in any other error state, and an empty plaintext with no engine
error each leave every slot of the table in place, with the same endpoints in the same
order (only the sender's engine moves to its next state), and the last of the three emits
exactly one warning event, naming the peer. -/
theorem readyRead_removes_only_on_peer_close (env : Env) (hk : env.KeepsPeer)
    (s : DtlsServer) :
    (∀ e, e ∈ s.knownClients.map QDtls.endpoint →
      e ∉ (DtlsServer.readyRead env s).1.knownClients.map QDtls.endpoint →
      ∃ d rest i c, s.serverSocket.pending = d :: rest ∧
        e = (d.senderAddress, d.senderPort) ∧
        find_if (DtlsServer.isPeer d.senderAddress d.senderPort) s.knownClients
          = some (i, c) ∧
        c.isConnectionEncrypted = true ∧
        (DtlsServer.decryptDatagram env c d.data).1.dtlsError
          = QDtlsError.RemoteClosedConnectionError) ∧
    (∀ d rest i c, s.serverSocket.pending = d :: rest →
      find_if (DtlsServer.isPeer d.senderAddress d.senderPort) s.knownClients
        = some (i, c) →
      (c.isConnectionEncrypted = false → (env.doHandshake c d.data).1 = false →
        (∃ c2, (DtlsServer.readyRead env s).1.knownClients = s.knownClients.set i c2 ∧
          c2.endpoint = c.endpoint) ∧
        (DtlsServer.readyRead env s).1.knownClients.map QDtls.endpoint
          = s.knownClients.map QDtls.endpoint) ∧
      (c.isConnectionEncrypted = true →
        (DtlsServer.decryptDatagram env c d.data).1.dtlsError
          ≠ QDtlsError.RemoteClosedConnectionError →
        (∃ c2, (DtlsServer.readyRead env s).1.knownClients = s.knownClients.set i c2 ∧
          c2.endpoint = c.endpoint) ∧
        (DtlsServer.readyRead env s).1.knownClients.map QDtls.endpoint
          = s.knownClients.map QDtls.endpoint) ∧
      (c.isConnectionEncrypted = true → (env.decryptDatagram c d.data).1 = [] →
        (env.decryptDatagram c d.data).2.dtlsError = QDtlsError.NoError →
        (∃ c2, (DtlsServer.readyRead env s).1.knownClients = s.knownClients.set i c2 ∧
          c2.endpoint = c.endpoint) ∧
        (DtlsServer.readyRead env s).1.knownClients.map QDtls.endpoint
          = s.knownClients.map QDtls.endpoint ∧
        (d.data ≠ [] → d.senderAddress ≠ QHostAddress.null → d.senderPort ≠ 0 →
          (DtlsServer.readyRead env s).2.filter Action.isWarningMessage
            = [Action.warningMessage
                (Message.zeroByteDgram (peer_info d.senderAddress d.senderPort))]))) := by
  constructor
  · intro e hin hout
    rcases readyRead_endpoints env hk s with h | ⟨d, rest, _, _, h⟩ | ⟨d, rest, i, c, hq, hf, henc, herr, h⟩
    · rw [h] at hout
      exact absurd hin hout
    · rw [h] at hout
      exact absurd (List.mem_append_left _ hin) hout
    · rw [h] at hout
      have hi := getElem?_of_mem_not_mem_eraseIdx _ _ _ hin hout
      obtain ⟨hc, hp, _⟩ := find_if_some _ _ _ _ hf
      have he : c.endpoint = e := by
        rw [List.getElem?_map, hc] at hi
        simpa using hi
      exact ⟨d, rest, i, c, hq, by rw [← he]; exact (isPeer_iff _ _ _).1 hp, hf, henc, herr⟩
  · intro d rest i c hq hf
    have hi := (find_if_some _ _ _ _ hf).1
    have key : ∀ (hno : ¬ (c.isConnectionEncrypted = true ∧
        (DtlsServer.decryptDatagram env c d.data).1.dtlsError
          = QDtlsError.RemoteClosedConnectionError)),
        (∃ c2, (DtlsServer.readyRead env s).1.knownClients = s.knownClients.set i c2 ∧
          c2.endpoint = c.endpoint) ∧
        (DtlsServer.readyRead env s).1.knownClients.map QDtls.endpoint
          = s.knownClients.map QDtls.endpoint := by
      intro hno
      obtain ⟨c2, h1, h2⟩ := readyRead_hit_keeps_slots env s d rest i c hq hf hno
      refine ⟨⟨c2, h1, h2 hk⟩, ?_⟩
      rw [h1]
      exact map_endpoint_set _ _ _ _ hi (h2 hk)
    refine ⟨?_, ?_, ?_⟩
    · intro henc _
      exact key (fun h => by rw [henc] at h; exact Bool.noConfusion h.1)
    · intro _ herr
      exact key (fun h => herr h.2)
    · intro henc hplain herr
      have hdec : DtlsServer.decryptDatagram env c d.data
          = ((env.decryptDatagram c d.data).2,
             [Action.engineDecryptDatagram c d.data,
              Action.warningMessage
                (Message.zeroByteDgram (peer_info c.peerAddress c.peerPort))]) := by
        rw [decryptDatagram_eq]
        simp [hplain, herr]
      have hne : (DtlsServer.decryptDatagram env c d.data).1.dtlsError
          ≠ QDtlsError.RemoteClosedConnectionError := by
        rw [hdec]
        simp only []
        rw [herr]
        decide
      obtain ⟨k1, k2⟩ := key (fun h => hne h.2)
      refine ⟨k1, k2, ?_⟩
      intro hd ha hp
      have hpe : peer_info c.peerAddress c.peerPort
          = peer_info d.senderAddress d.senderPort := by
        have h3 := (isPeer_iff _ _ _).1 (find_if_some _ _ _ _ hf).2.1
        simp only [QDtls.endpoint, Prod.mk.injEq] at h3
        rw [h3.1, h3.2]
      rw [readyRead_head env s d rest hq hd, validSender d ha hp]
      simp only [hf, henc, hdec, herr, Bool.false_eq_true, if_false, if_true, hpe]
      simp [List.filter_cons, Action.isWarningMessage]

theorem readyRead_removes_only_on_peer_close_witness :
    (QHostAddress.ip 1, 40000) ∈
      (twoSessions [sampleDatagram [21, 0] 40000]).knownClients.map QDtls.endpoint ∧
    (QHostAddress.ip 1, 40000) ∉
      (DtlsServer.readyRead envReject
        (twoSessions [sampleDatagram [21, 0] 40000])).1.knownClients.map QDtls.endpoint ∧
    (∃ d rest i c,
      (twoSessions [sampleDatagram [21, 0] 40000]).serverSocket.pending = d :: rest ∧
      (QHostAddress.ip 1, 40000) = (d.senderAddress, d.senderPort) ∧
      find_if (DtlsServer.isPeer d.senderAddress d.senderPort)
        (twoSessions [sampleDatagram [21, 0] 40000]).knownClients = some (i, c) ∧
      c.isConnectionEncrypted = true ∧
      (DtlsServer.decryptDatagram envReject c d.data).1.dtlsError
        = QDtlsError.RemoteClosedConnectionError) ∧
    (DtlsServer.readyRead envAccept
        (twoSessions [sampleDatagram [23, 7] 40001])).1.knownClients.map QDtls.endpoint
      = (twoSessions [sampleDatagram [23, 7] 40001]).knownClients.map QDtls.endpoint := by
  have hout : (QHostAddress.ip 1, 40000) ∉
      (DtlsServer.readyRead envReject
        (twoSessions [sampleDatagram [21, 0] 40000])).1.knownClients.map QDtls.endpoint := by
    decide
  have h1 := (readyRead_removes_only_on_peer_close envReject envReject_keepsPeer
    (twoSessions [sampleDatagram [21, 0] 40000])).1 (QHostAddress.ip 1, 40000)
    (by decide) hout
  have h2 := ((readyRead_removes_only_on_peer_close envAccept envAccept_keepsPeer
    (twoSessions [sampleDatagram [23, 7] 40001])).2 (sampleDatagram [23, 7] 40001) [] 1
    (sampleEngine 40001 true) rfl rfl).2.1 rfl (by decide)
  exact ⟨by decide, hout, h1, h2.2⟩

theorem listen_knownClients (env : Env) (s : DtlsServer) (address : QHostAddress)
    (port : Nat) :
    (DtlsServer.listen env s address port).2.1.knownClients = [] ∨
    (DtlsServer.listen env s address port).2.1.knownClients = s.knownClients := by
  unfold DtlsServer.listen
  split
  · left
    simp only []
    split <;> rfl
  · right; rfl

/-- One `readyRead` keeps the endpoints of the table distinct, for engines that keep their
peer endpoint. -/
theorem readyRead_keeps_unique (env : Env) (hk : env.KeepsPeer) (s : DtlsServer)
    (hn : (s.knownClients.map QDtls.endpoint).Nodup) :
    ((DtlsServer.readyRead env s).1.knownClients.map QDtls.endpoint).Nodup := by
  rcases readyRead_endpoints env hk s with h | ⟨d, rest, _, hmiss, h⟩ | ⟨d, rest, i, c, _, _, _, _, h⟩
  · rw [h]; exact hn
  · rw [h, List.nodup_append]
    refine ⟨hn, List.nodup_singleton _, ?_⟩
    intro a ha hb
    rw [List.mem_singleton] at hb
    exact hmiss (hb ▸ ha)
  · rw [h]; exact hn.eraseIdx i

/-- Endpoints are unique in every reachable state. -/
theorem reachable_unique (s : DtlsServer) (h : Reachable s) :
    (s.knownClients.map QDtls.endpoint).Nodup := by
  induction h with
  | init => exact List.nodup_nil
  | listen env s address port _ ih =>
    rcases listen_knownClients env s address port with h | h
    · rw [h]; exact List.nodup_nil
    · rw [h]; exact ih
  | close s _ ih => exact ih
  | shutdown s _ _ => exact List.nodup_nil
  | arrive s d _ ih => exact ih
  | readyRead env s hk _ ih => exact readyRead_keeps_unique env hk s ih

/-- A datagram whose sender is in the table never reaches the verifier and never makes the
table longer. -/
theorem readyRead_known_sender (env : Env) (s : DtlsServer) (d : Datagram)
    (rest : List Datagram) (hq : s.serverSocket.pending = d :: rest)
    (hin : (d.senderAddress, d.senderPort) ∈ s.knownClients.map QDtls.endpoint) :
    (DtlsServer.readyRead env s).2.filter Action.isVerifyClient = [] ∧
    (DtlsServer.readyRead env s).1.knownClients.length ≤ s.knownClients.length := by
  by_cases hd : d.data = []
  · rw [readyRead_zero_length env s d rest hq hd]
    exact ⟨rfl, Nat.le_refl _⟩
  · rw [readyRead_head env s d rest hq hd]
    split
    · exact ⟨rfl, Nat.le_refl _⟩
    · split
      · rename_i hnone
        exact absurd hin ((find_if_isPeer_none _ _ _).1 hnone)
      · split
        · split
          · refine ⟨decryptDatagram_no_verify _ _ _, ?_⟩
            simp only [eraseIdx_set_self]
            exact List.length_eraseIdx_le _ _
          · refine ⟨decryptDatagram_no_verify _ _ _, ?_⟩
            simp
        · refine ⟨doHandshake_no_verify _ _ _, ?_⟩
          simp

/-- C1: in every state reachable from a freshly constructed server by `listen`, `close`,
`shutdown`, datagram arrivals and `readyRead` dispatches, under any outcomes of the
verifier, the engines and the bind (engines keeping the peer endpoint they were created
with), no two records of `knownClients` have the same (peerAddress, peerPort).  Hence a
datagram whose sender is in the table never makes `readyRead` call the verifier and never
makes the table longer, and the table after the dispatch again has no two records with the
same endpoint. -/
theorem knownClients_unique_endpoints (s : DtlsServer) (h : Reachable s) :
    (s.knownClients.map QDtls.endpoint).Nodup ∧
    (∀ (i j : Nat) (c1 c2 : QDtls), s.knownClients[i]? = some c1 →
      s.knownClients[j]? = some c2 → c1.peerAddress = c2.peerAddress →
      c1.peerPort = c2.peerPort → i = j) ∧
    (∀ (env : Env) (d : Datagram) (rest : List Datagram),
      s.serverSocket.pending = d :: rest →
      (d.senderAddress, d.senderPort) ∈ s.knownClients.map QDtls.endpoint →
        (DtlsServer.readyRead env s).2.filter Action.isVerifyClient = [] ∧
        (DtlsServer.readyRead env s).1.knownClients.length ≤ s.knownClients.length ∧
        (env.KeepsPeer →
          ((DtlsServer.readyRead env s).1.knownClients.map QDtls.endpoint).Nodup)) := by
  have hn := reachable_unique s h
  refine ⟨hn, ?_, ?_⟩
  · intro i j c1 c2 h1 h2 ha hp
    have hi : i < (s.knownClients.map QDtls.endpoint).length := by
      rw [List.length_map]
      exact (List.getElem?_eq_some_iff.1 h1).1
    have hj : j < (s.knownClients.map QDtls.endpoint).length := by
      rw [List.length_map]
      exact (List.getElem?_eq_some_iff.1 h2).1
    have e1 : (s.knownClients.map QDtls.endpoint)[i]? = some c1.endpoint := by
      rw [List.getElem?_map, h1]; rfl
    have e2 : (s.knownClients.map QDtls.endpoint)[j]? = some c2.endpoint := by
      rw [List.getElem?_map, h2]; rfl
    have hce : c1.endpoint = c2.endpoint := by
      simp [QDtls.endpoint, ha, hp]
    have g1 := (List.getElem?_eq_some_iff.1 e1).2
    have g2 := (List.getElem?_eq_some_iff.1 e2).2
    exact (List.Nodup.getElem_inj_iff hn).1 (by rw [g1, g2, hce])
  · intro env d rest hq hin
    obtain ⟨k1, k2⟩ := readyRead_known_sender env s d rest hq hin
    exact ⟨k1, k2, fun hk => readyRead_keeps_unique env hk s hn⟩

theorem knownClients_unique_endpoints_witness :
    Reachable (oneSession.arrive (sampleDatagram [22, 254, 253] 40000)) ∧
    (oneSession.arrive (sampleDatagram [22, 254, 253] 40000)).knownClients.map QDtls.endpoint
      = [(QHostAddress.ip 1, 40000)] ∧
    (DtlsServer.readyRead envAccept
        (oneSession.arrive (sampleDatagram [22, 254, 253] 40000))).2.filter
          Action.isVerifyClient = [] ∧
    (DtlsServer.readyRead envAccept
        (oneSession.arrive (sampleDatagram [22, 254, 253] 40000))).1.knownClients.length
      ≤ 1 := by
  have hr : Reachable (oneSession.arrive (sampleDatagram [22, 254, 253] 40000)) :=
    Reachable.arrive _ _
      (Reachable.readyRead envAccept _ envAccept_keepsPeer
        (Reachable.arrive _ _
          (Reachable.listen envAccept _ (QHostAddress.ip 1) 9000 Reachable.init)))
  have h := (knownClients_unique_endpoints _ hr).2.2 envAccept
    (sampleDatagram [22, 254, 253] 40000) [] rfl (by decide)
  exact ⟨hr, rfl, h.1, h.2.1⟩

end SecureUdp
